import Mathlib

/-!
Verification of the `unsigned_mul_hi` primitive from
`src/nativeInterop/cinterop/unsigned_mul_hi.c`:

```c
uint64_t unsigned_mul_hi(uint64_t x, uint64_t y) {
    __uint128_t p = (__uint128_t)x * (__uint128_t)y;
    return (uint64_t)(p >> 64);
}
```

Machine integers are embedded as `Nat` with explicit reductions modulo
`2 ^ w` wherever the C code truncates: the `uint64_t` parameters are
residues modulo `2 ^ 64`, the `__uint128_t` product is taken modulo
`2 ^ 128`, the right shift by 64 is division by `2 ^ 64`, and the final
cast to `uint64_t` is a reduction modulo `2 ^ 64`.
-/

/-- Shallow embedding of the C function `unsigned_mul_hi`.
The inputs are reduced modulo `2 ^ 64` (they are `uint64_t` values), the
product is the `__uint128_t` product (modulo `2 ^ 128`), `>> 64` is
division by `2 ^ 64`, and the result is cast back to `uint64_t`
(modulo `2 ^ 64`). -/
def unsigned_mul_hi (x y : Nat) : Nat :=
  ((x % 2 ^ 64) * (y % 2 ^ 64) % 2 ^ 128) / 2 ^ 64 % 2 ^ 64

/-- Characterization used by several theorems below: on in-range inputs
the embedded function computes `x * y / 2 ^ 64` exactly, because the
128-bit intermediate never wraps and the quotient fits in 64 bits. -/
theorem unsigned_mul_hi_eq (x y : Nat) (hx : x < 2 ^ 64) (hy : y < 2 ^ 64) :
    unsigned_mul_hi x y = x * y / 2 ^ 64 := by
  unfold unsigned_mul_hi
  rw [Nat.mod_eq_of_lt hx, Nat.mod_eq_of_lt hy]
  have hp : x * y < 2 ^ 128 := by
    calc x * y ≤ (2 ^ 64 - 1) * (2 ^ 64 - 1) :=
          Nat.mul_le_mul (Nat.le_pred_of_lt hx) (Nat.le_pred_of_lt hy)
      _ < 2 ^ 128 := by norm_num
  rw [Nat.mod_eq_of_lt hp]
  have hq : x * y / 2 ^ 64 < 2 ^ 64 := by
    apply Nat.div_lt_of_lt_mul
    calc x * y ≤ (2 ^ 64 - 1) * (2 ^ 64 - 1) :=
          Nat.mul_le_mul (Nat.le_pred_of_lt hx) (Nat.le_pred_of_lt hy)
      _ < 2 ^ 64 * 2 ^ 64 := by norm_num
  exact Nat.mod_eq_of_lt hq

/-- C1: for every pair of unsigned 64-bit integers `x` and `y`,
`unsigned_mul_hi x y` equals `⌊(x * y) / 2 ^ 64⌋` where `x * y` is the
mathematically exact (unbounded) product. -/
theorem C1_mul_hi_correct (x y : Nat) (hx : x < 2 ^ 64) (hy : y < 2 ^ 64) :
    unsigned_mul_hi x y = x * y / 2 ^ 64 :=
  unsigned_mul_hi_eq x y hx hy

/-- Witness for C1 at the concrete inputs `x = 3`, `y = 5`. -/
theorem C1_mul_hi_correct_witness :
    3 < 2 ^ 64 ∧ 5 < 2 ^ 64 ∧ unsigned_mul_hi 3 5 = 3 * 5 / 2 ^ 64 :=
  ⟨by norm_num, by norm_num, C1_mul_hi_correct 3 5 (by norm_num) (by norm_num)⟩

/-- C2: `unsigned_mul_hi` is total: for every pair of inputs it returns a
value, and that value is a valid unsigned 64-bit integer (no trap, throw
or sentinel error value exists in the embedding). -/
theorem C2_total (x y : Nat) : unsigned_mul_hi x y < 2 ^ 64 := by
  unfold unsigned_mul_hi
  exact Nat.mod_lt _ (by norm_num)

/-- C3: `unsigned_mul_hi` is commutative. -/
theorem C3_comm (x y : Nat) : unsigned_mul_hi x y = unsigned_mul_hi y x := by
  unfold unsigned_mul_hi
  rw [Nat.mul_comm]

/-- C4: zero is absorbing in either argument. -/
theorem C4_zero_absorb (x y : Nat) :
    unsigned_mul_hi x 0 = 0 ∧ unsigned_mul_hi 0 y = 0 := by
  constructor <;> simp [unsigned_mul_hi]

/-- C5: multiplying by one yields zero in the high half. -/
theorem C5_one (x : Nat) : unsigned_mul_hi x 1 = 0 := by
  unfold unsigned_mul_hi
  have h1 : (1 : Nat) % 2 ^ 64 = 1 := by norm_num
  rw [h1, Nat.mul_one]
  have hx : x % 2 ^ 64 < 2 ^ 64 := Nat.mod_lt _ (by norm_num)
  rw [Nat.mod_eq_of_lt (lt_trans hx (by norm_num))]
  rw [Nat.div_eq_of_lt hx]
  norm_num

/-- C6: at the maximum inputs,
`unsigned_mul_hi (2 ^ 64 - 1) (2 ^ 64 - 1) = 2 ^ 64 - 2`. -/
theorem C6_max :
    unsigned_mul_hi (2 ^ 64 - 1) (2 ^ 64 - 1) = 2 ^ 64 - 2 := by
  norm_num [unsigned_mul_hi]

/-- C7: power-of-two scaling: `unsigned_mul_hi (2 ^ 63) 2 = 1` and
`unsigned_mul_hi (2 ^ 32) (2 ^ 32) = 1`. -/
theorem C7_pow_two :
    unsigned_mul_hi (2 ^ 63) 2 = 1 ∧ unsigned_mul_hi (2 ^ 32) (2 ^ 32) = 1 := by
  constructor <;> norm_num [unsigned_mul_hi]

/-- C8: concrete spot values: `unsigned_mul_hi 0xFFFFFFFFFFFFFFFF 2 = 1`
and `unsigned_mul_hi 1000000007 1000000009 = 0`. -/
theorem C8_spot :
    unsigned_mul_hi 0xFFFFFFFFFFFFFFFF 2 = 1 ∧
    unsigned_mul_hi 1000000007 1000000009 = 0 := by
  constructor <;> norm_num [unsigned_mul_hi]

/-- C9: `unsigned_mul_hi` is deterministic: two invocations with equal
inputs return equal outputs, and the result depends on nothing but the
two inputs. -/
theorem C9_deterministic (x₁ y₁ x₂ y₂ : Nat) (hx : x₁ = x₂) (hy : y₁ = y₂) :
    unsigned_mul_hi x₁ y₁ = unsigned_mul_hi x₂ y₂ := by
  rw [hx, hy]

/-- Witness for C9 at the concrete inputs `x = 2`, `y = 3`. -/
theorem C9_deterministic_witness :
    (2 : Nat) = 2 ∧ (3 : Nat) = 3 ∧ unsigned_mul_hi 2 3 = unsigned_mul_hi 2 3 :=
  ⟨rfl, rfl, C9_deterministic 2 3 2 3 rfl rfl⟩

/-- C10: on in-range inputs, `unsigned_mul_hi` is monotone non-decreasing
in each argument, and its result is strictly less than `x` whenever
`x ≥ 1` and strictly less than `y` whenever `y ≥ 1`. -/
theorem C10_monotone_strict (x x' y y' : Nat)
    (hx : x < 2 ^ 64) (hx' : x' < 2 ^ 64) (hy : y < 2 ^ 64) (hy' : y' < 2 ^ 64) :
    (x ≤ x' → unsigned_mul_hi x y ≤ unsigned_mul_hi x' y) ∧
    (y ≤ y' → unsigned_mul_hi x y ≤ unsigned_mul_hi x y') ∧
    (1 ≤ x → unsigned_mul_hi x y < x) ∧
    (1 ≤ y → unsigned_mul_hi x y < y) := by
  refine ⟨?_, ?_, ?_, ?_⟩
  · intro hle
    rw [unsigned_mul_hi_eq x y hx hy, unsigned_mul_hi_eq x' y hx' hy]
    exact Nat.div_le_div_right (Nat.mul_le_mul_right y hle)
  · intro hle
    rw [unsigned_mul_hi_eq x y hx hy, unsigned_mul_hi_eq x y' hx hy']
    exact Nat.div_le_div_right (Nat.mul_le_mul_left x hle)
  · intro hx1
    rw [unsigned_mul_hi_eq x y hx hy]
    apply Nat.div_lt_of_lt_mul
    nlinarith
  · intro hy1
    rw [unsigned_mul_hi_eq x y hx hy]
    apply Nat.div_lt_of_lt_mul
    nlinarith

/-- Witness for C10 at the concrete inputs `x = 1`, `x' = 2`, `y = 1`,
`y' = 3`. -/
theorem C10_monotone_strict_witness :
    1 < 2 ^ 64 ∧ 2 < 2 ^ 64 ∧ 1 < 2 ^ 64 ∧ (3 : Nat) < 2 ^ 64 ∧
    ((1 ≤ 2 → unsigned_mul_hi 1 1 ≤ unsigned_mul_hi 2 1) ∧
     ((1 : Nat) ≤ 3 → unsigned_mul_hi 1 1 ≤ unsigned_mul_hi 1 3) ∧
     (1 ≤ 1 → unsigned_mul_hi 1 1 < 1) ∧
     (1 ≤ 1 → unsigned_mul_hi 1 1 < 1)) :=
  ⟨by norm_num, by norm_num, by norm_num, by norm_num,
    C10_monotone_strict 1 2 1 3 (by norm_num) (by norm_num) (by norm_num)
      (by norm_num)⟩
